import Mathlib

/-!
Shallow embedding of the go-phoenix SDK (github.com/agentplexus/go-phoenix)
for checking its natural-language specification.

Each definition is translated from the corresponding Go source; doc comments
name the Go symbol being embedded.  Go mutation is rendered as explicit state
passing; Go `error` results become `Option`/`Except`; external effects
(HTTP calls, the OpenTelemetry SDK) are modelled by explicit parameters or
by a small state record, as noted next to each definition.
-/

namespace GoPhoenix

/-- Go `float64` values.  The SDK never computes with scores: every `float64`
in the code is carried opaquely from input to output, so a value is
represented by its bit pattern, giving decidable equality without
floating-point arithmetic. -/
structure Float64 where
  bits : Nat
deriving DecidableEq, Repr

/-! ## HTTP requests and the authenticated transport wrapper (client.go) -/

/-- `Version` constant from client.go: the SDK version. -/
def Version : String := "0.1.0"

/-- A Go `http.Header` modelled as an association list of single-valued
headers.  `Header.Set` replaces all values stored under the key (the three
keys the SDK sets are already in MIME canonical form, so Go's key
canonicalisation is the identity on them). -/
def Headers := List (String × String)

/-- Go `http.Header.Set`: replace every value under `k` by the single value `v`. -/
def headersSet (hs : Headers) (k v : String) : Headers :=
  (List.filter (fun p => p.1 ≠ k) hs) ++ [(k, v)]

/-- Go `http.Header.Get` (restricted to our single-valued model). -/
def headersGet (hs : Headers) (k : String) : Option String :=
  (List.find? (fun p => p.1 = k) hs).map (fun p => p.2)

/-- A Go `*http.Request`, restricted to the parts the SDK touches or forwards. -/
structure Request where
  method : String
  url : String
  body : String
  headers : Headers

/-- A Go `*http.Response`, opaque to the wrapper. -/
structure Response where
  status : Nat
deriving DecidableEq, Repr

/-- `authHTTPClient` from client.go: wraps an `http.Client` (modelled as a
function from the final request to a response) and the configured API key. -/
structure authHTTPClient where
  client : Request → Response
  apiKey : String

/-- `authHTTPClient.Do` from client.go.  The Go code mutates `req` in place
and then delegates; the returned pair is (response, the request as handed to
the wrapped client), making the in-place mutation observable. -/
def authHTTPClient.Do (c : authHTTPClient) (req : Request) : Response × Request :=
  let req := if c.apiKey ≠ "" then
      { req with headers := headersSet req.headers "Authorization" ("Bearer " ++ c.apiKey) }
    else req
  let req := { req with headers := headersSet req.headers "X-Phoenix-SDK-Version" Version }
  let req := { req with headers := headersSet req.headers "X-Phoenix-SDK-Lang" "go" }
  (c.client req, req)

/-! ## Configuration resolver (config.go, options in errors.go/client.go) -/

/-- `DefaultURL` from config.go. -/
def DefaultURL : String := "http://localhost:6006"

/-- `DefaultProjectName` from config.go. -/
def DefaultProjectName : String := "default"

/-- The Phoenix Cloud URL substituted by `loadFromEnv` when a space ID is set. -/
def cloudURL : String := "https://app.phoenix.arize.com"

/-- `Config` from config.go. -/
structure Config where
  URL : String
  SpaceID : String
  APIKey : String
  ProjectName : String
deriving DecidableEq, Repr

/-- The process environment restricted to the four variables `loadFromEnv`
reads; Go's `os.Getenv` returns `""` for an unset variable, so each field is
a plain string with `""` meaning unset. -/
structure Env where
  url : String
  spaceID : String
  apiKey : String
  projectName : String
deriving DecidableEq, Repr

/-- `NewConfig` from config.go: defaults (`SpaceID` is the Go zero value). -/
def NewConfig : Config :=
  { URL := DefaultURL, SpaceID := "", APIKey := "", ProjectName := DefaultProjectName }

/-- `Config.loadFromEnv` from config.go, with the environment passed explicitly. -/
def Config.loadFromEnv (c : Config) (env : Env) : Config :=
  let c := if env.url ≠ "" then { c with URL := env.url } else c
  let c := if env.spaceID ≠ "" then
      let c := { c with SpaceID := env.spaceID }
      if c.URL = DefaultURL then { c with URL := cloudURL } else c
    else c
  let c := if env.apiKey ≠ "" then { c with APIKey := env.apiKey } else c
  if env.projectName ≠ "" then { c with ProjectName := env.projectName } else c

/-- `LoadConfig` from config.go. -/
def LoadConfig (env : Env) : Config :=
  Config.loadFromEnv NewConfig env

/-- `clientOptions` from errors.go (options file): the HTTP client is opaque. -/
structure clientOptions where
  config : Config
  httpClient : Option Nat
  timeout : Int
deriving DecidableEq, Repr

/-- `defaultClientOptions` from the options file: config from `LoadConfig`,
timeout 60 s (nanoseconds, as Go `time.Duration`). -/
def defaultClientOptions (env : Env) : clientOptions :=
  { config := LoadConfig env, httpClient := none, timeout := 60 * 1000000000 }

/-- The functional options `WithURL`, `WithAPIKey`, `WithProjectName`,
`WithSpaceID`, `WithConfig`, `WithHTTPClient`, `WithTimeout` from the
options file, as a closed datatype of the option values they capture. -/
inductive ClientOption
  | withURL (url : String)
  | withAPIKey (apiKey : String)
  | withProjectName (projectName : String)
  | withSpaceID (spaceID : String)
  | withConfig (config : Config)
  | withHTTPClient (client : Nat)
  | withTimeout (timeout : Int)
deriving DecidableEq, Repr

/-- Application of one functional option to `clientOptions` (each `With...`
closure from the options file). -/
def applyClientOption (o : clientOptions) : ClientOption → clientOptions
  | .withURL url => { o with config := { o.config with URL := url } }
  | .withAPIKey apiKey => { o with config := { o.config with APIKey := apiKey } }
  | .withProjectName projectName =>
      { o with config := { o.config with ProjectName := projectName } }
  | .withSpaceID spaceID => { o with config := { o.config with SpaceID := spaceID } }
  | .withConfig config => { o with config := config }
  | .withHTTPClient client => { o with httpClient := some client }
  | .withTimeout timeout => { o with timeout := timeout }

/-- The option-merging prefix of `NewClient` from client.go:
`options := defaultClientOptions(); for _, opt := range opts { opt(options) }`.
(The subsequent `Validate` call is embedded separately as `Config.Validate`.) -/
def resolveClientOptions (env : Env) (opts : List ClientOption) : clientOptions :=
  List.foldl applyClientOption (defaultClientOptions env) opts

/-! ## Config.Validate (config.go) -/

/-- Go `strings.TrimSuffix(s, "/")`: removes one trailing `/` if present. -/
def trimSuffixSlash (s : String) : String :=
  if s.endsWith "/" then s.dropRight 1 else s

/-- Errors of the SDK.  Sentinels created with `errors.New` are distinct
constructors (Go compares them by pointer identity); `apiError` is a
`*APIError` value; `wrap` is an error produced by `fmt.Errorf("...%w...", e)`;
`other` stands for any foreign error value. -/
inductive GoError
  | errMissingURL
  | errMissingAPIKey
  | errProjectNotFound
  | errTraceNotFound
  | errSpanNotFound
  | errDatasetNotFound
  | errExperimentNotFound
  | errPromptNotFound
  | errInvalidInput
  | errNoActiveTrace
  | apiError (statusCode : Int) (message : String) (details : String)
  | other (tag : Nat)
  | wrap (msg : String) (inner : GoError)
deriving DecidableEq, Repr

/-- Go `err.Error()` for the SDK's errors: sentinel texts from errors.go,
`APIError.Error()` from errors.go, the wrapper's own message for `fmt.Errorf`
wrappers, and an arbitrary distinct text for foreign errors. -/
def errText : GoError → String
  | .errMissingURL => "phoenix: missing API URL"
  | .errMissingAPIKey => "phoenix: missing API key"
  | .errProjectNotFound => "phoenix: project not found"
  | .errTraceNotFound => "phoenix: trace not found"
  | .errSpanNotFound => "phoenix: span not found"
  | .errDatasetNotFound => "phoenix: dataset not found"
  | .errExperimentNotFound => "phoenix: experiment not found"
  | .errPromptNotFound => "phoenix: prompt not found"
  | .errInvalidInput => "phoenix: invalid input"
  | .errNoActiveTrace => "llmops: no active trace"
  | .apiError _ message details =>
      if details ≠ "" then "phoenix: API error (" ++ message ++ "): " ++ details
      else "phoenix: API error: " ++ message
  | .other tag => "error-" ++ Nat.repr tag
  | .wrap msg _ => msg

/-- `Config.Validate` from config.go.  The Go method mutates the receiver and
returns an error; here it returns (error?, updated config). -/
def Config.Validate (c : Config) : Option GoError × Config :=
  if c.URL = "" then (some GoError.errMissingURL, c)
  else
    let c := { c with URL := trimSuffixSlash c.URL }
    let c := if c.SpaceID ≠ "" then { c with URL := c.URL ++ "/s/" ++ c.SpaceID } else c
    (none, c)

/-! ## Error classification (errors.go) -/

/-- Go `==` on two error interface values when the right side is one of the
package sentinels: true only for the identical sentinel (sentinels are
distinct allocations, and `*APIError`/wrapped/foreign values are never
pointer-equal to a sentinel). -/
def sameSentinel : GoError → GoError → Bool
  | .errMissingURL, .errMissingURL => true
  | .errMissingAPIKey, .errMissingAPIKey => true
  | .errProjectNotFound, .errProjectNotFound => true
  | .errTraceNotFound, .errTraceNotFound => true
  | .errSpanNotFound, .errSpanNotFound => true
  | .errDatasetNotFound, .errDatasetNotFound => true
  | .errExperimentNotFound, .errExperimentNotFound => true
  | .errPromptNotFound, .errPromptNotFound => true
  | .errInvalidInput, .errInvalidInput => true
  | .errNoActiveTrace, .errNoActiveTrace => true
  | _, _ => false

/-- Go `errors.Is(err, target)` for a sentinel target: equality at each level
of the `%w` unwrap chain (none of the SDK's error types beside `wrap` has an
`Unwrap` method). -/
def errorsIs : GoError → GoError → Bool
  | .wrap msg inner, target =>
      sameSentinel (.wrap msg inner) target || errorsIs inner target
  | e, target => sameSentinel e target

/-- `IsNotFound` from errors.go.  Go's `err == nil` test is the `none` case;
the `err.(*APIError)` type assertion is the `apiError` case. -/
def IsNotFound : Option GoError → Bool
  | none => false
  | some e =>
    match e with
    | .apiError statusCode _ _ => statusCode == 404
    | e =>
        errorsIs e .errProjectNotFound ||
        errorsIs e .errTraceNotFound ||
        errorsIs e .errSpanNotFound ||
        errorsIs e .errDatasetNotFound ||
        errorsIs e .errExperimentNotFound ||
        errorsIs e .errPromptNotFound

/-! ## OpenTelemetry registration (otel/config.go, otel/register.go) -/

/-- `otel.Config` from otel/config.go.  Durations are Go `time.Duration`
(nanoseconds, `Int`); the protocol enum is irrelevant to the claims and kept
as its string value. -/
structure OtelConfig where
  Endpoint : String
  SpaceID : String
  ProjectName : String
  APIKey : String
  Headers : List (String × String)
  Protocol : String
  Batch : Bool
  BatchTimeout : Int
  BatchSize : Int
  SetGlobalProvider : Bool
  ServiceName : String
  ServiceVersion : String
  Insecure : Bool
deriving DecidableEq, Repr

/-- The trailing-slash stripping loop in `Config.EffectiveEndpoint`
(otel/config.go): removes every trailing `/`. -/
def stripTrailingSlashes (s : String) : String :=
  String.mk ((s.toList.reverse.dropWhile (fun ch => ch = '/')).reverse)

/-- `Config.EffectiveEndpoint` from otel/config.go. -/
def OtelConfig.EffectiveEndpoint (c : OtelConfig) : String :=
  if c.SpaceID ≠ "" then stripTrailingSlashes c.Endpoint ++ "/s/" ++ c.SpaceID
  else c.Endpoint

/-- Insert into a Go `map[string]string` modelled as an association list
(assignment overwrites the key). -/
def mapSet (m : List (String × String)) (k v : String) : List (String × String) :=
  (List.filter (fun p => p.1 ≠ k) m) ++ [(k, v)]

/-- The observable configuration of the OTLP HTTP exporter built by
`createExporter` (otel/register.go), up to the options handed to the external
`otlptracehttp` constructor.  URL parsing (`net/url`) is external; the
endpoint is recorded after the scheme-prefix normalisation that precedes the
parse, and the headers after the map assembly. -/
structure ExporterModel where
  endpoint : String
  headers : List (String × String)
deriving DecidableEq, Repr

/-- The header-assembly and endpoint-normalisation part of `createExporter`
(otel/register.go). -/
def createExporterModel (cfg : OtelConfig) : ExporterModel :=
  let endpoint := cfg.EffectiveEndpoint
  let endpoint :=
    if !endpoint.startsWith "http://" && !endpoint.startsWith "https://" then
      "http://" ++ endpoint
    else endpoint
  let headers := cfg.Headers.foldl (fun m p => mapSet m p.1 p.2) []
  let headers := if cfg.APIKey ≠ "" then mapSet headers "Authorization" ("Bearer " ++ cfg.APIKey)
    else headers
  let headers := if cfg.ProjectName ≠ "" then
      mapSet headers "x-phoenix-project-name" cfg.ProjectName
    else headers
  { endpoint := endpoint, headers := headers }

/-- The span processor chosen by `Register` (otel/register.go): either the
SDK's batch processor with the configured timeout and max export batch size,
or the SDK's simple synchronous processor.  Both processors are external
(`go.opentelemetry.io/otel/sdk/trace`); only their identity and parameters
are recorded. -/
inductive SpanProcessorModel
  | batchProcessor (batchTimeout : Int) (maxExportBatchSize : Int)
  | simpleProcessor
deriving DecidableEq, Repr

/-- The tracer provider built by `Register` (otel/register.go): its span
processor, the resource attribute for the project, and whether
`otel.SetTracerProvider` was called on it. -/
structure TracerProviderModel where
  exporter : ExporterModel
  processor : SpanProcessorModel
  projectAttr : String
  setAsGlobal : Bool
deriving DecidableEq, Repr

/-- `Register` from otel/register.go (after `DefaultConfig()` and option
application, which callers perform on `cfg`): builds the exporter, picks the
span processor, builds the provider, and installs it globally iff
`cfg.SetGlobalProvider`.  Exporter and resource construction are external
calls that cannot fail in this model; their observable arguments are kept. -/
def Register (cfg : OtelConfig) : TracerProviderModel :=
  let exporter := createExporterModel cfg
  let spanProcessor :=
    if cfg.Batch then SpanProcessorModel.batchProcessor cfg.BatchTimeout cfg.BatchSize
    else SpanProcessorModel.simpleProcessor
  { exporter := exporter
    processor := spanProcessor
    projectAttr := cfg.ProjectName
    setAsGlobal := cfg.SetGlobalProvider }

/-! ## Wire-to-domain conversion (client.go convertProject, span.go convertSpan)

The `api.*` wire types are generated by ogen (internal/api, not under src/);
their optional-field wrappers are modelled from their use sites:
`OptNilString` has `Value`/`Set`/`Null`, `OptString` has `Value`/`Set`. -/

/-- ogen `OptNilString`. -/
structure OptNilString where
  Value : String
  Set : Bool
  Null : Bool
deriving DecidableEq, Repr

/-- ogen `OptString`. -/
structure OptString where
  Value : String
  Set : Bool
deriving DecidableEq, Repr

/-- `api.Project` wire type (fields used by convertProject). -/
structure ApiProject where
  ID : String
  Name : String
  Description : OptNilString
deriving DecidableEq, Repr

/-- `Project` domain type from client.go (timestamps are not populated by
`convertProject` and stay at their zero value; they are omitted). -/
structure Project where
  ID : String
  Name : String
  Description : String
deriving DecidableEq, Repr

/-- `convertProject` from client.go. -/
def convertProject : Option ApiProject → Option Project
  | none => none
  | some p =>
    let project : Project := { ID := p.ID, Name := p.Name, Description := "" }
    let project := if p.Description.Set && !p.Description.Null then
        { project with Description := p.Description.Value }
      else project
    some project

/-- `api.SpanContext` wire type (fields used by convertSpan). -/
structure ApiSpanContext where
  TraceID : String
  SpanID : String
deriving DecidableEq, Repr

/-- Go `time.Time` values are carried opaquely; represented by Unix
nanoseconds. -/
structure GoTime where
  unixNano : Int
deriving DecidableEq, Repr

/-- `api.Span` wire type (fields used by convertSpan). -/
structure ApiSpan where
  ID : OptString
  Name : String
  SpanKind : String
  StatusCode : String
  StatusMessage : OptString
  ParentID : OptNilString
  Context : ApiSpanContext
  StartTime : GoTime
  EndTime : GoTime
deriving DecidableEq, Repr

/-- `Span` domain type from span.go. -/
structure Span where
  ID : String
  Name : String
  SpanKind : String
  StatusCode : String
  StatusMessage : String
  ParentID : String
  TraceID : String
  SpanID : String
  StartTime : GoTime
  EndTime : GoTime
deriving DecidableEq, Repr

/-- `convertSpan` from span.go. -/
def convertSpan : Option ApiSpan → Option Span
  | none => none
  | some s =>
    let span : Span :=
      { ID := "", Name := s.Name, SpanKind := s.SpanKind, StatusCode := s.StatusCode
        StatusMessage := "", ParentID := "", TraceID := s.Context.TraceID
        SpanID := s.Context.SpanID, StartTime := s.StartTime, EndTime := s.EndTime }
    let span := if s.ID.Set then { span with ID := s.ID.Value } else span
    let span := if s.StatusMessage.Set then { span with StatusMessage := s.StatusMessage.Value }
      else span
    let span := if s.ParentID.Set && !s.ParentID.Null then { span with ParentID := s.ParentID.Value }
      else span
    some span

/-! ## The llmops trace/span context adapter (provider.go, span.go, trace.go
of the llmops subpackage)

The OpenTelemetry SDK (`go.opentelemetry.io/otel/trace`) is external.  Its
behaviour relevant here: `tracer.Start(ctx, name)` creates a span whose
trace ID is inherited from the span stored (under OTEL's own context key) in
`ctx`, or freshly generated for a root span; the returned context stores the
new span.  `TraceID().String()` and `SpanID().String()` always return 32- and
16-character hex strings, never `""`.  This is modelled by a counter state
generating IDs of the shape below, which are provably non-empty. -/

/-- The `trace.SpanContext` of an OTEL span: its trace and span IDs as the
strings `TraceID().String()` / `SpanID().String()` return. -/
structure OtelSpan where
  traceID : String
  spanID : String
deriving DecidableEq, Repr

/-- State of the modelled OTEL SDK: a counter for fresh IDs. -/
structure OtelState where
  counter : Nat
deriving DecidableEq, Repr

/-- Fresh trace-ID generator (stands for OTEL's random 16-byte trace IDs). -/
def genTraceID (n : Nat) : String := "trace-" ++ Nat.repr n

/-- Fresh span-ID generator (stands for OTEL's random 8-byte span IDs). -/
def genSpanID (n : Nat) : String := "span-" ++ Nat.repr n

/-- `spanWrapper` from the llmops adapter's span.go: wraps an OTEL span with
the stored trace ID, parent span ID, name and span type.  The `provider`
back-pointer (used only to reach the tracer) and timing fields are carried by
the explicit state instead. -/
structure spanWrapper where
  otelSpan : OtelSpan
  traceID : String
  parentSpanID : String
  name : String
  spanType : String
deriving DecidableEq, Repr

/-- `traceWrapper` from the llmops adapter's trace.go. -/
structure traceWrapper where
  otelSpan : OtelSpan
  name : String
deriving DecidableEq, Repr

/-- A Go `context.Context` restricted to the three keys the adapter layer
reads: the adapter's `traceContextKey` and `spanContextKey` slots, and the
OTEL SDK's own current-span slot. -/
structure Ctx where
  trace : Option traceWrapper
  span : Option spanWrapper
  otel : Option OtelSpan
deriving DecidableEq, Repr

/-- `contextWithTrace` from trace.go. -/
def contextWithTrace (ctx : Ctx) (t : traceWrapper) : Ctx := { ctx with trace := some t }

/-- `traceFromContext` from trace.go. -/
def traceFromContext (ctx : Ctx) : Option traceWrapper := ctx.trace

/-- `contextWithSpan` from trace.go. -/
def contextWithSpan (ctx : Ctx) (s : spanWrapper) : Ctx := { ctx with span := some s }

/-- `spanFromContext` from trace.go. -/
def spanFromContext (ctx : Ctx) : Option spanWrapper := ctx.span

/-- External `tracer.Start(ctx, name)`: child of the OTEL span in `ctx` when
present (inheriting its trace ID), else a fresh root; the new span is stored
in the returned context. -/
def tracerStart (σ : OtelState) (ctx : Ctx) : OtelState × Ctx × OtelSpan :=
  let tid := match ctx.otel with
    | some parent => parent.traceID
    | none => genTraceID σ.counter
  let sp : OtelSpan := { traceID := tid, spanID := genSpanID σ.counter }
  ({ counter := σ.counter + 1 }, { ctx with otel := some sp }, sp)

/-- `spanWrapper.ID` from span.go: `s.otelSpan.SpanContext().SpanID().String()`. -/
def spanWrapper.ID (s : spanWrapper) : String := s.otelSpan.spanID

/-- `spanWrapper.TraceID` from span.go: the stored trace ID, falling back to
the OTEL span context when the stored one is empty. -/
def spanWrapper.TraceID (s : spanWrapper) : String :=
  if s.traceID = "" then s.otelSpan.traceID else s.traceID

/-- `spanWrapper.ParentSpanID` from span.go. -/
def spanWrapper.ParentSpanID (s : spanWrapper) : String := s.parentSpanID

/-- `traceWrapper.ID` from trace.go:
`t.otelSpan.SpanContext().TraceID().String()`. -/
def traceWrapper.ID (t : traceWrapper) : String := t.otelSpan.traceID

/-- `newSpan` from span.go, restricted to the identity fields (the attribute
side effects on the OTEL span do not touch identity or context). -/
def newSpan (name : String) (otelSpan : OtelSpan) (traceID parentSpanID : String)
    (spanType : String) : spanWrapper :=
  { otelSpan := otelSpan, traceID := traceID, parentSpanID := parentSpanID
    name := name, spanType := spanType }

/-- `newTrace` from trace.go, restricted likewise. -/
def newTrace (name : String) (otelSpan : OtelSpan) : traceWrapper :=
  { otelSpan := otelSpan, name := name }

/-- `Provider.StartTrace` from provider.go. -/
def Provider.StartTrace (σ : OtelState) (ctx : Ctx) (name : String) :
    OtelState × Ctx × traceWrapper :=
  let (σ, ctx, otelSpan) := tracerStart σ ctx
  let t := newTrace name otelSpan
  let ctx := contextWithTrace ctx t
  (σ, ctx, t)

/-- `Provider.StartSpan` from provider.go. -/
def Provider.StartSpan (σ : OtelState) (ctx : Ctx) (name : String) (spanType : String := "") :
    OtelState × Ctx × spanWrapper :=
  let parentTraceID := match traceFromContext ctx with
    | some t => t.ID
    | none => ""
  let (parentTraceID, parentSpanID) := match spanFromContext ctx with
    | some s => (if parentTraceID = "" then s.TraceID else parentTraceID, s.ID)
    | none => (parentTraceID, "")
  let (σ, ctx, otelSpan) := tracerStart σ ctx
  let s := newSpan name otelSpan parentTraceID parentSpanID spanType
  let ctx := contextWithSpan ctx s
  (σ, ctx, s)

/-- `Provider.SpanFromContext` from provider.go. -/
def Provider.SpanFromContext (ctx : Ctx) : Option spanWrapper := spanFromContext ctx

/-- `traceWrapper.StartSpan` from trace.go: child span with stored trace ID
`t.ID()` and empty parent span ID. -/
def traceWrapper.StartSpan (t : traceWrapper) (σ : OtelState) (ctx : Ctx) (name : String)
    (spanType : String := "") : OtelState × Ctx × spanWrapper :=
  let (σ, ctx, otelSpan) := tracerStart σ ctx
  let s := newSpan name otelSpan t.ID "" spanType
  let ctx := contextWithSpan ctx s
  (σ, ctx, s)

/-- `spanWrapper.StartSpan` from span.go: child span with stored trace ID
`s.TraceID()` and parent span ID `s.ID()`. -/
def spanWrapper.StartSpan (s : spanWrapper) (σ : OtelState) (ctx : Ctx) (name : String)
    (spanType : String := "") : OtelState × Ctx × spanWrapper :=
  let (σ, ctx, otelSpan) := tracerStart σ ctx
  let child := newSpan name otelSpan s.TraceID s.ID spanType
  let ctx := contextWithSpan ctx child
  (σ, ctx, child)

/-- Well-formedness of a context, reflecting the OTEL guarantee that
`TraceID().String()` is never empty: every OTEL span reachable from the
context slots has a non-empty trace ID. -/
def Ctx.WF (ctx : Ctx) : Prop :=
  (match ctx.trace with
    | some t => t.otelSpan.traceID ≠ ""
    | none => True) ∧
  (match ctx.span with
    | some s => s.otelSpan.traceID ≠ ""
    | none => True)

/-- Contexts descending from the context in which the trace `t` was started:
the context `StartTrace` returned, closed under starting child spans through
`Provider.StartSpan`, `traceWrapper.StartSpan` and `spanWrapper.StartSpan`. -/
inductive DescendsFrom (t : traceWrapper) : Ctx → Prop
  | start (σ : OtelState) (ctx₀ : Ctx) (name : String) :
      (Provider.StartTrace σ ctx₀ name).2.2 = t →
      DescendsFrom t (Provider.StartTrace σ ctx₀ name).2.1
  | provSpan (σ : OtelState) (ctx : Ctx) (name spanType : String) :
      DescendsFrom t ctx → DescendsFrom t (Provider.StartSpan σ ctx name spanType).2.1
  | traceSpan (t' : traceWrapper) (σ : OtelState) (ctx : Ctx) (name spanType : String) :
      DescendsFrom t ctx → DescendsFrom t (traceWrapper.StartSpan t' σ ctx name spanType).2.1
  | spanSpan (s : spanWrapper) (σ : OtelState) (ctx : Ctx) (name spanType : String) :
      DescendsFrom t ctx → DescendsFrom t (spanWrapper.StartSpan s σ ctx name spanType).2.1

/-! ## Feedback scores (provider.go AddFeedbackScore, trace.go buildFeedbackAttrs) -/

/-- OTEL attribute values used by the feedback path. -/
inductive AttrVal
  | str (s : String)
  | num (x : Float64)
deriving DecidableEq, Repr

/-- `llmops.FeedbackOptions` (external interface package): options a
`FeedbackOption` can set. -/
structure FeedbackOptions where
  Reason : String
  Category : String
  Source : String
deriving DecidableEq, Repr

/-- The zero `FeedbackOptions` built by `&llmops.FeedbackOptions{}`. -/
def FeedbackOptions.zero : FeedbackOptions := { Reason := "", Category := "", Source := "" }

/-- `llmops.FeedbackScoreOpts` (external interface package). -/
structure FeedbackScoreOpts where
  Name : String
  Score : Float64
  Reason : String
  SpanID : String
  TraceID : String
deriving DecidableEq, Repr

/-- `buildFeedbackAttrs` from trace.go. -/
def buildFeedbackAttrs (name : String) (score : Float64) (cfg : FeedbackOptions) :
    List (String × AttrVal) :=
  let attrs := [("feedback.name", AttrVal.str name), ("feedback.score", AttrVal.num score)]
  let attrs := if cfg.Reason ≠ "" then attrs ++ [("feedback.reason", AttrVal.str cfg.Reason)]
    else attrs
  let attrs := if cfg.Category ≠ "" then attrs ++ [("feedback.category", AttrVal.str cfg.Category)]
    else attrs
  if cfg.Source ≠ "" then attrs ++ [("feedback.source", AttrVal.str cfg.Source)] else attrs

/-- The observable effect of `AddEvent("feedback", ...)` on a span or trace
wrapper: which wrapper received the event, and with which attributes. -/
inductive FeedbackEvent
  | onSpan (s : spanWrapper) (attrs : List (String × AttrVal))
  | onTrace (t : traceWrapper) (attrs : List (String × AttrVal))
deriving DecidableEq, Repr

/-- `spanWrapper.AddFeedbackScore` from span.go, called with no
`FeedbackOption`s (as `Provider.AddFeedbackScore` does): the options struct
stays zero and the event carries `buildFeedbackAttrs(name, score, cfg)`. -/
def spanWrapper.AddFeedbackScore (s : spanWrapper) (name : String) (score : Float64) :
    Option GoError × FeedbackEvent :=
  (none, FeedbackEvent.onSpan s (buildFeedbackAttrs name score FeedbackOptions.zero))

/-- `traceWrapper.AddFeedbackScore` from trace.go, likewise. -/
def traceWrapper.AddFeedbackScore (t : traceWrapper) (name : String) (score : Float64) :
    Option GoError × FeedbackEvent :=
  (none, FeedbackEvent.onTrace t (buildFeedbackAttrs name score FeedbackOptions.zero))

/-- `Provider.AddFeedbackScore` from provider.go: forwards only `opts.Name`
and `opts.Score` to the span in context, else the trace in context, else
fails with `llmops.ErrNoActiveTrace`. -/
def Provider.AddFeedbackScore (ctx : Ctx) (opts : FeedbackScoreOpts) :
    Except GoError FeedbackEvent :=
  match spanFromContext ctx with
  | some s => Except.ok (spanWrapper.AddFeedbackScore s opts.Name opts.Score).2
  | none =>
    match traceFromContext ctx with
    | some t => Except.ok (traceWrapper.AddFeedbackScore t opts.Name opts.Score).2
    | none => Except.error GoError.errNoActiveTrace

/-! ## Evaluator (evals/evaluator.go)

`llmops.Metric` is an external interface implemented by the caller; a metric
is a name together with an arbitrary `Evaluate` function.  The `api.*` types
are generated; the span-annotating endpoint is an external HTTP call,
modelled as a function from the request body to an optional error.
`MetricScore.Metadata` is a Go `any`: nil, a `map[string]any`, or a value of
any other dynamic type.  The label extraction in `recordScoresToPhoenix`
applies the one-value type assertion `score.Metadata.(map[string]any)`, which
panics at run time on a non-nil non-map value; a Go panic (never recovered in
this package) is modelled as `Except.error` carrying the panic message. -/

/-- A `map[string]any` value as probed by the evaluator (`.(string)`
assertions succeed only on the `str` form). -/
inductive MetaVal
  | str (s : String)
  | nonString (tag : Nat)
deriving DecidableEq, Repr

/-- A Go `any` (interface value) as stored in `MetricScore.Metadata`: a
`map[string]any`, or a value of any other dynamic type (on which the
one-value assertion `.(map[string]any)` panics). -/
inductive GoAny
  | strMap (m : List (String × MetaVal))
  | nonMap (tag : Nat)
deriving DecidableEq, Repr

/-- `m[k].(string)` on a `map[string]any`: the value under `k` when it is a
string. -/
def metaLookupStr (m : List (String × MetaVal)) (k : String) : Option String :=
  match List.find? (fun p => p.1 = k) m with
  | some (_, MetaVal.str s) => some s
  | _ => none

/-- Whether the one-value type assertion `Metadata.(map[string]any)` would
panic on this metadata: it is non-nil and not a `map[string]any`. -/
def metaIsNonMap : Option GoAny → Bool
  | some (GoAny.nonMap _) => true
  | _ => false

/-- `llmops.MetricScore` (external interface package), fields used by the
evaluator; `Metadata` is a Go `any` (`none` is the nil interface). -/
structure MetricScore where
  Name : String
  Score : Float64
  Reason : String
  Metadata : Option GoAny
  Error : String
deriving DecidableEq, Repr

/-- `llmops.EvalInput` (external interface package), fields the evaluator reads. -/
structure EvalInput where
  Input : String
  Output : String
  SpanID : String
deriving DecidableEq, Repr

/-- `llmops.Metric` (external interface): `Name()` and `Evaluate(input)`. -/
structure Metric where
  name : String
  evaluate : EvalInput → Except String MetricScore

/-- `llmops.EvalResult`, fields the evaluator writes (`Duration` is wall-clock
time and is omitted). -/
structure EvalResult where
  Scores : List MetricScore
  Metadata : Option (List (String × String))
deriving DecidableEq, Repr

/-- `api.SpanAnnotationData.AnnotatorKind` values (generated enum). -/
inductive AnnotKind
  | llm
  | code
  | human
deriving DecidableEq, Repr

/-- `api.AnnotationResult`: score always set by the evaluator; explanation
and label optional. -/
structure AnnotResult where
  score : Option Float64
  explanationText : Option String
  label : Option String
deriving DecidableEq, Repr

/-- `api.SpanAnnotationData` (generated wire type, fields the evaluator sets). -/
structure SpanAnnotData where
  SpanID : String
  Name : String
  AnnotatorKind : AnnotKind
  Result : AnnotResult
deriving DecidableEq, Repr

/-- `api.AnnotateSpansRequestBody`. -/
structure AnnotateSpansReqBody where
  Data : List SpanAnnotData
deriving DecidableEq, Repr

/-- `inferAnnotatorKind` from evals/evaluator.go.  Its map access is the
guarded two-value assertion `m, ok := score.Metadata.(map[string]any)`, so a
non-map metadata value falls through to the CODE default without panicking. -/
def inferAnnotKind (score : MetricScore) : AnnotKind :=
  match score.Metadata with
  | some (GoAny.strMap m) =>
    match metaLookupStr m "kind" with
    | some "llm" => AnnotKind.llm
    | some "LLM" => AnnotKind.llm
    | some "code" => AnnotKind.code
    | some "CODE" => AnnotKind.code
    | some "human" => AnnotKind.human
    | some "HUMAN" => AnnotKind.human
    | _ => AnnotKind.code
  | some (GoAny.nonMap _) => AnnotKind.code
  | none => AnnotKind.code

/-- The annotation-datum assembly in the loop body of `recordScoresToPhoenix`
(evals/evaluator.go) on a score whose metadata does not make the label
assertion panic: span ID, score name, inferred annotator kind, and a result
with the score set, the reason as explanation when non-empty, and the
metadata `label` string when present (the panic case is raised by
`annsLoop`). -/
def mkSpanAnnotData (spanID : String) (score : MetricScore) : SpanAnnotData :=
  { SpanID := spanID
    Name := score.Name
    AnnotatorKind := inferAnnotKind score
    Result :=
      { score := some score.Score
        explanationText := if score.Reason ≠ "" then some score.Reason else none
        label := match score.Metadata with
          | some (GoAny.strMap m) => metaLookupStr m "label"
          | _ => none } }

/-- The run-time panic message of the failed one-value type assertion
`score.Metadata.(map[string]any)` in the label extraction of
`recordScoresToPhoenix`. -/
def labelAssertPanic : String :=
  "interface conversion: interface is not map[string]interface"

/-- The annotation-building loop of `recordScoresToPhoenix`
(evals/evaluator.go): errored scores are skipped (`continue`); for a kept
score, if its metadata is non-nil and not a `map[string]any`, the label
extraction's unchecked one-value type assertion panics (modelled as
`Except.error`); otherwise the assembled datum is appended. -/
def annsLoop (spanID : String) : List MetricScore → List SpanAnnotData →
    Except String (List SpanAnnotData)
  | [], acc => Except.ok acc
  | score :: rest, acc =>
    if score.Error ≠ "" then annsLoop spanID rest acc
    else if metaIsNonMap score.Metadata then Except.error labelAssertPanic
    else annsLoop spanID rest (acc ++ [mkSpanAnnotData spanID score])

/-- `recordScoresToPhoenix` from evals/evaluator.go, with the external
`AnnotateSpans` HTTP call passed in as `api`.  `Except.ok` carries the Go
error result together with the list of API calls issued (empty or a single
request); `Except.error` is an uncaught panic from the annotation loop. -/
def recordScoresToPhoenix (api : AnnotateSpansReqBody → Option GoError) (spanID : String)
    (scores : List MetricScore) :
    Except String (Option GoError × List AnnotateSpansReqBody) :=
  match annsLoop spanID scores [] with
  | Except.error msg => Except.error msg
  | Except.ok anns =>
    if anns = [] then Except.ok (none, [])
    else
      let req : AnnotateSpansReqBody := { Data := anns }
      Except.ok (api req, [req])

/-- `Evaluator.Evaluate` from evals/evaluator.go (receiver field
`recordResults` and the external API call passed explicitly).  `Except.ok`
carries the `(*EvalResult, error)` pair together with the API calls issued;
`Except.error` is a panic propagating out of `recordScoresToPhoenix`
(nothing in the package recovers it). -/
def Evaluator.Evaluate (recordResults : Bool) (api : AnnotateSpansReqBody → Option GoError)
    (input : EvalInput) (metricList : List Metric) :
    Except String (EvalResult × Option GoError × List AnnotateSpansReqBody) :=
  let scores := metricList.foldl
    (fun acc metric =>
      match metric.evaluate input with
      | Except.ok score => acc ++ [score]
      | Except.error e =>
          acc ++ [{ Name := metric.name, Score := ⟨0⟩, Reason := "", Metadata := none
                    Error := e }])
    []
  let result : EvalResult := { Scores := scores, Metadata := none }
  if recordResults ∧ input.SpanID ≠ "" then
    match recordScoresToPhoenix api input.SpanID scores with
    | Except.error msg => Except.error msg
    | Except.ok (some e, calls) =>
        Except.ok ({ result with Metadata := some [("record_error", errText e)] }, none, calls)
    | Except.ok (none, calls) => Except.ok (result, none, calls)
  else Except.ok (result, none, [])

/-- The score a single metric contributes in `Evaluator.Evaluate`: the
metric's own score, or a score recording the error message (the loop body of
the metric loop in evals/evaluator.go, per element). -/
def runMetric (input : EvalInput) (metric : Metric) : MetricScore :=
  match metric.evaluate input with
  | Except.ok score => score
  | Except.error e =>
      { Name := metric.name, Score := ⟨0⟩, Reason := "", Metadata := none, Error := e }

/-! ## Helper lemmas -/

theorem append_s_ne_empty (a b : String) : a ++ "/s/" ++ b ≠ "" := by
  intro h
  have hlen : (a ++ "/s/" ++ b).length = 0 := by rw [h]; rfl
  rw [String.length_append, String.length_append] at hlen
  have h3 : ("/s/" : String).length = 3 := by decide
  omega

theorem headersGet_set_same (hs : Headers) (k v : String) :
    headersGet (headersSet hs k v) k = some v := by
  induction hs with
  | nil => simp [headersGet, headersSet]
  | cons head tail ih =>
    by_cases h : head.1 = k <;> simpa [headersGet, headersSet, h] using ih

theorem headersGet_set_other (hs : Headers) (k v k' : String) (h : k' ≠ k) :
    headersGet (headersSet hs k v) k' = headersGet hs k' := by
  induction hs with
  | nil =>
    simp only [headersSet, headersGet, List.filter_nil, List.nil_append, List.find?_nil]
    rw [List.find?_cons_of_neg _ (by simp [Ne.symm h]), List.find?_nil]
  | cons head tail ih =>
    simp only [headersSet, headersGet, List.filter_cons] at ih ⊢
    by_cases h1 : head.1 = k
    · have h2 : ¬head.1 = k' := by rw [h1]; exact Ne.symm h
      rw [if_neg (by simp [h1]), List.find?_cons_of_neg _ (by simp [h2])]
      exact ih
    · by_cases h2 : head.1 = k'
      · rw [if_pos (by simp [h1]), List.cons_append,
          List.find?_cons_of_pos _ (by simp [h2]), List.find?_cons_of_pos _ (by simp [h2])]
      · rw [if_pos (by simp [h1]), List.cons_append,
          List.find?_cons_of_neg _ (by simp [h2]), List.find?_cons_of_neg _ (by simp [h2])]
        exact ih

/-! ## Claim theorems -/

/-- C6: `Register` implements no batching itself and only configures the
existing exporter pipeline: with `cfg.Batch` set it builds the tracer
provider over a batch span processor parameterized by `cfg.BatchTimeout` and
`cfg.BatchSize`, otherwise over a simple synchronous span processor, and it
installs the provider as the global tracer provider exactly when
`cfg.SetGlobalProvider` is set. -/
theorem C6_register_pipeline (cfg : OtelConfig) :
    ((Register cfg).processor =
      if cfg.Batch then SpanProcessorModel.batchProcessor cfg.BatchTimeout cfg.BatchSize
      else SpanProcessorModel.simpleProcessor) ∧
    (Register cfg).setAsGlobal = cfg.SetGlobalProvider := by
  exact ⟨rfl, rfl⟩

/-- C7: the wire-to-domain conversions mirror the REST resource shapes:
`convertProject` copies ID and Name, copies Description exactly when the
wrapper is Set and not Null (zero value otherwise); `convertSpan` copies
Name, SpanKind, StatusCode, StartTime, EndTime, TraceID and SpanID
unconditionally and ID, StatusMessage, ParentID only when their optional
wrappers indicate presence; both map a nil input to nil. -/
theorem C7_convert_wire_shapes :
    convertProject none = none ∧
    (∀ p : ApiProject, convertProject (some p) =
      some { ID := p.ID, Name := p.Name
             Description := if p.Description.Set && !p.Description.Null then p.Description.Value
               else "" }) ∧
    convertSpan none = none ∧
    (∀ s : ApiSpan, convertSpan (some s) =
      some { ID := if s.ID.Set then s.ID.Value else ""
             Name := s.Name, SpanKind := s.SpanKind, StatusCode := s.StatusCode
             StatusMessage := if s.StatusMessage.Set then s.StatusMessage.Value else ""
             ParentID := if s.ParentID.Set && !s.ParentID.Null then s.ParentID.Value else ""
             TraceID := s.Context.TraceID, SpanID := s.Context.SpanID
             StartTime := s.StartTime, EndTime := s.EndTime }) := by
  refine ⟨rfl, ?_, rfl, ?_⟩
  · intro p
    cases h1 : p.Description.Set <;> cases h2 : p.Description.Null <;>
      simp [convertProject, h1, h2]
  · intro s
    cases h1 : s.ID.Set <;> cases h2 : s.StatusMessage.Set <;>
      cases h3 : s.ParentID.Set <;> cases h4 : s.ParentID.Null <;>
      simp [convertSpan, h1, h2, h3, h4]

/-- C8: `Config.Validate` fails with `ErrMissingURL` exactly when the URL is
empty, leaving the config unchanged in that case; on success it rewrites the
URL to the old value with at most one trailing slash removed and, for a
non-empty SpaceID, with "/s/"+SpaceID appended — so a second successful call
with a non-empty SpaceID appends the "/s/"+SpaceID suffix a second time. -/
theorem C8_validate_mutation (c : Config) :
    ((Config.Validate c).1 = some GoError.errMissingURL ↔ c.URL = "") ∧
    (c.URL = "" → (Config.Validate c).2 = c) ∧
    (c.URL ≠ "" →
      (Config.Validate c).1 = none ∧
      (Config.Validate c).2 =
        { c with URL := trimSuffixSlash c.URL ++
            (if c.SpaceID ≠ "" then "/s/" ++ c.SpaceID else "") }) ∧
    (c.URL ≠ "" → c.SpaceID ≠ "" →
      (Config.Validate (Config.Validate c).2).1 = none ∧
      (Config.Validate (Config.Validate c).2).2.URL =
        trimSuffixSlash (Config.Validate c).2.URL ++ "/s/" ++ c.SpaceID) := by
  by_cases hu : c.URL = ""
  · refine ⟨by simp [Config.Validate, hu], fun _ => by simp [Config.Validate, hu],
      fun h => absurd hu h, fun h => absurd hu h⟩
  · by_cases hs : c.SpaceID = ""
    · refine ⟨by simp [Config.Validate, hu], fun h => absurd h hu,
        fun _ => ⟨by simp [Config.Validate, hu, hs], by simp [Config.Validate, hu, hs]⟩,
        fun _ h => absurd hs h⟩
    · have h1 : (Config.Validate c).2 =
          { c with URL := trimSuffixSlash c.URL ++ "/s/" ++ c.SpaceID } := by
        simp [Config.Validate, hu, hs]
      have hne : trimSuffixSlash c.URL ++ "/s/" ++ c.SpaceID ≠ "" :=
        append_s_ne_empty _ _
      refine ⟨by simp [Config.Validate, hu], fun h => absurd h hu,
        fun _ => ⟨by simp [Config.Validate, hu],
          by rw [h1]; simp [hs, String.append_assoc]⟩,
        fun _ _ => ?_⟩
      rw [h1]
      constructor
      · rw [Config.Validate, if_neg hne]
      · rw [Config.Validate, if_neg hne]
        simp [hs]

/-- C9: `IsNotFound` holds exactly on a `*APIError` with status 404 or on an
error that wraps (in the `errors.Is` sense) one of the six not-found
sentinels; it is false on nil and on a `*APIError` with any other status. -/
theorem C9_is_not_found (e : Option GoError) :
    (IsNotFound e = true ↔
      ((∃ code msg details, e = some (GoError.apiError code msg details) ∧ code = 404) ∨
       (∃ err, e = some err ∧
         (errorsIs err GoError.errProjectNotFound = true ∨
          errorsIs err GoError.errTraceNotFound = true ∨
          errorsIs err GoError.errSpanNotFound = true ∨
          errorsIs err GoError.errDatasetNotFound = true ∨
          errorsIs err GoError.errExperimentNotFound = true ∨
          errorsIs err GoError.errPromptNotFound = true)))) ∧
    IsNotFound none = false ∧
    (∀ code msg details, code ≠ 404 →
      IsNotFound (some (GoError.apiError code msg details)) = false) := by
  refine ⟨?_, rfl, ?_⟩
  · cases e with
    | none => simp [IsNotFound]
    | some err =>
      cases err <;>
        simp [IsNotFound, errorsIs, sameSentinel] <;>
        tauto
  · intro code msg details h
    simp [IsNotFound, h]

/-- Witness for C9 at status code 500: the hypothesis `code ≠ 404` holds and
the classifier rejects the error. -/
theorem C9_witness :
    (500 : Int) ≠ 404 ∧ IsNotFound (some (GoError.apiError 500 "boom" "")) = false :=
  ⟨by decide, (C9_is_not_found (some (GoError.apiError 500 "boom" ""))).2.2 500 "boom" "" (by decide)⟩

/-- C3 counterexample: with an empty configured API key (the default), `Do`
does not set the Authorization header at all, so the claim's unconditional
"sets the Authorization header to Bearer + configured key" fails. -/
theorem C3_counterexample :
    headersGet
      (authHTTPClient.Do ⟨fun _ => ⟨200⟩, ""⟩
        { method := "GET", url := "http://localhost:6006/v1/projects", body := ""
          headers := [] }).2.headers
      "Authorization" ≠ some ("Bearer " ++ "") := by
  decide

/-- C3 (amended): `authHTTPClient.Do` sets the Authorization header to
"Bearer "+APIKey when the configured API key is non-empty (and leaves the
Authorization header untouched when the key is empty), sets
X-Phoenix-SDK-Version to the SDK Version constant and X-Phoenix-SDK-Lang to
"go", leaves every other header and every other part of the request
unchanged, and delegates exactly that request to the underlying client. -/
theorem C3_auth_transport_amended (client : Request → Response) (apiKey : String)
    (req : Request) :
    (apiKey ≠ "" →
      headersGet (authHTTPClient.Do ⟨client, apiKey⟩ req).2.headers "Authorization" =
        some ("Bearer " ++ apiKey)) ∧
    (apiKey = "" →
      headersGet (authHTTPClient.Do ⟨client, apiKey⟩ req).2.headers "Authorization" =
        headersGet req.headers "Authorization") ∧
    headersGet (authHTTPClient.Do ⟨client, apiKey⟩ req).2.headers "X-Phoenix-SDK-Version" =
      some Version ∧
    headersGet (authHTTPClient.Do ⟨client, apiKey⟩ req).2.headers "X-Phoenix-SDK-Lang" =
      some "go" ∧
    (∀ k, k ≠ "Authorization" → k ≠ "X-Phoenix-SDK-Version" → k ≠ "X-Phoenix-SDK-Lang" →
      headersGet (authHTTPClient.Do ⟨client, apiKey⟩ req).2.headers k =
        headersGet req.headers k) ∧
    (authHTTPClient.Do ⟨client, apiKey⟩ req).2.method = req.method ∧
    (authHTTPClient.Do ⟨client, apiKey⟩ req).2.url = req.url ∧
    (authHTTPClient.Do ⟨client, apiKey⟩ req).2.body = req.body ∧
    (authHTTPClient.Do ⟨client, apiKey⟩ req).1 =
      client (authHTTPClient.Do ⟨client, apiKey⟩ req).2 := by
  by_cases ha : apiKey = ""
  · have hreq : (authHTTPClient.Do ⟨client, apiKey⟩ req).2 =
        { req with headers :=
            (headersSet (headersSet req.headers "X-Phoenix-SDK-Version" Version)
              "X-Phoenix-SDK-Lang" "go") } := by
      simp [authHTTPClient.Do, ha]
    refine ⟨fun hne => absurd ha hne, fun _ => ?_, ?_, ?_, ?_, ?_, ?_, ?_, ?_⟩
    · rw [hreq]
      rw [headersGet_set_other _ _ _ _ (by decide), headersGet_set_other _ _ _ _ (by decide)]
    · rw [hreq]
      rw [headersGet_set_other _ _ _ _ (by decide), headersGet_set_same]
    · rw [hreq, headersGet_set_same]
    · intro k hk1 hk2 hk3
      rw [hreq]
      rw [headersGet_set_other _ _ _ _ hk3, headersGet_set_other _ _ _ _ hk2]
    · rw [hreq]
    · rw [hreq]
    · rw [hreq]
    · simp [authHTTPClient.Do, ha]
  · have hreq : (authHTTPClient.Do ⟨client, apiKey⟩ req).2 =
        { req with headers :=
            (headersSet (headersSet (headersSet req.headers
                "Authorization" ("Bearer " ++ apiKey))
              "X-Phoenix-SDK-Version" Version)
              "X-Phoenix-SDK-Lang" "go") } := by
      simp [authHTTPClient.Do, ha]
    refine ⟨fun _ => ?_, fun h => absurd h ha, ?_, ?_, ?_, ?_, ?_, ?_, ?_⟩
    · rw [hreq]
      rw [headersGet_set_other _ _ _ _ (by decide), headersGet_set_other _ _ _ _ (by decide),
        headersGet_set_same]
    · rw [hreq]
      rw [headersGet_set_other _ _ _ _ (by decide), headersGet_set_same]
    · rw [hreq, headersGet_set_same]
    · intro k hk1 hk2 hk3
      rw [hreq]
      rw [headersGet_set_other _ _ _ _ hk3, headersGet_set_other _ _ _ _ hk2,
        headersGet_set_other _ _ _ _ hk1]
    · rw [hreq]
    · rw [hreq]
    · rw [hreq]
    · simp [authHTTPClient.Do, ha]

/-- Witness for C3 (amended) with a non-empty key: the Authorization header
carries the bearer token. -/
theorem C3_witness :
    ("secret" : String) ≠ "" ∧
    headersGet
      (authHTTPClient.Do ⟨fun _ => ⟨200⟩, "secret"⟩
        { method := "GET", url := "u", body := ""
          headers := [("Accept", "application/json")] }).2.headers
      "Authorization" = some ("Bearer " ++ "secret") :=
  ⟨by decide,
    (C3_auth_transport_amended (fun _ => ⟨200⟩) "secret"
      { method := "GET", url := "u", body := ""
        headers := [("Accept", "application/json")] }).1 (by decide)⟩

/-- C4: the configuration resolver merges explicit options, environment
variables and defaults with priority explicit > environment > default: with
no options the effective config is the defaults overridden field-by-field by
the non-empty environment variables (SpaceID switching a still-default URL
to Phoenix Cloud); the options are then applied in order on top of that
environment-merged config, and an option given for a field sets exactly
that field, so an explicit option always wins over the environment. -/
theorem LoadConfig_eq (env : Env) :
    LoadConfig env =
      { URL := if env.spaceID ≠ "" ∧ (if env.url ≠ "" then env.url else DefaultURL) = DefaultURL
          then cloudURL else (if env.url ≠ "" then env.url else DefaultURL)
        SpaceID := env.spaceID
        APIKey := env.apiKey
        ProjectName := if env.projectName ≠ "" then env.projectName else DefaultProjectName } := by
  simp only [LoadConfig, Config.loadFromEnv, NewConfig]
  split_ifs <;> simp_all

theorem C4_config_resolution (env : Env) (opts : List ClientOption) :
    ((resolveClientOptions env []).config.URL =
      if env.spaceID ≠ "" ∧ (if env.url ≠ "" then env.url else DefaultURL) = DefaultURL
      then cloudURL
      else (if env.url ≠ "" then env.url else DefaultURL)) ∧
    (resolveClientOptions env []).config.SpaceID = env.spaceID ∧
    (resolveClientOptions env []).config.APIKey = env.apiKey ∧
    ((resolveClientOptions env []).config.ProjectName =
      if env.projectName ≠ "" then env.projectName else DefaultProjectName) ∧
    resolveClientOptions env opts =
      List.foldl applyClientOption (resolveClientOptions env []) opts ∧
    (∀ u, (resolveClientOptions env (opts ++ [ClientOption.withURL u])).config.URL = u) ∧
    (∀ s, (resolveClientOptions env (opts ++ [ClientOption.withAPIKey s])).config.APIKey = s) ∧
    (∀ s, (resolveClientOptions env
      (opts ++ [ClientOption.withProjectName s])).config.ProjectName = s) ∧
    (∀ s, (resolveClientOptions env (opts ++ [ClientOption.withSpaceID s])).config.SpaceID = s) := by
  refine ⟨?_, ?_, ?_, ?_, rfl, ?_, ?_, ?_, ?_⟩
  · show (LoadConfig env).URL = _
    rw [LoadConfig_eq]
  · show (LoadConfig env).SpaceID = _
    rw [LoadConfig_eq]
  · show (LoadConfig env).APIKey = _
    rw [LoadConfig_eq]
  · show (LoadConfig env).ProjectName = _
    rw [LoadConfig_eq]
  · intro u
    simp [resolveClientOptions, List.foldl_append, applyClientOption]
  · intro s
    simp [resolveClientOptions, List.foldl_append, applyClientOption]
  · intro s
    simp [resolveClientOptions, List.foldl_append, applyClientOption]
  · intro s
    simp [resolveClientOptions, List.foldl_append, applyClientOption]

/-- C10: `Provider.AddFeedbackScore` attaches the score to the span in the
context when present, otherwise to the trace in the context, and fails with
`ErrNoActiveTrace` exactly when the context holds neither; in the successful
cases only `opts.Name` and `opts.Score` are forwarded — the Reason and all
other feedback options are dropped. -/
theorem C10_add_feedback_score (ctx : Ctx) (opts : FeedbackScoreOpts) :
    (∀ s, ctx.span = some s →
      Provider.AddFeedbackScore ctx opts =
        Except.ok (FeedbackEvent.onSpan s
          [("feedback.name", AttrVal.str opts.Name),
           ("feedback.score", AttrVal.num opts.Score)])) ∧
    (ctx.span = none → ∀ t, ctx.trace = some t →
      Provider.AddFeedbackScore ctx opts =
        Except.ok (FeedbackEvent.onTrace t
          [("feedback.name", AttrVal.str opts.Name),
           ("feedback.score", AttrVal.num opts.Score)])) ∧
    (Provider.AddFeedbackScore ctx opts = Except.error GoError.errNoActiveTrace ↔
      ctx.span = none ∧ ctx.trace = none) := by
  cases hS : ctx.span <;> cases hT : ctx.trace <;>
    simp [Provider.AddFeedbackScore, spanFromContext, traceFromContext,
      spanWrapper.AddFeedbackScore, traceWrapper.AddFeedbackScore,
      buildFeedbackAttrs, FeedbackOptions.zero, hS, hT]

/-- Witness for C10: with a span in the context, the score lands on that
span with only name and score forwarded (the reason "good" is dropped). -/
theorem C10_witness :
    (({ trace := none, span := some ⟨⟨"trace-1", "span-1"⟩, "trace-1", "", "llm-call", ""⟩
        otel := none } : Ctx).span =
      some ⟨⟨"trace-1", "span-1"⟩, "trace-1", "", "llm-call", ""⟩) ∧
    Provider.AddFeedbackScore
      { trace := none, span := some ⟨⟨"trace-1", "span-1"⟩, "trace-1", "", "llm-call", ""⟩
        otel := none }
      { Name := "accuracy", Score := ⟨7⟩, Reason := "good", SpanID := "", TraceID := "" } =
      Except.ok (FeedbackEvent.onSpan ⟨⟨"trace-1", "span-1"⟩, "trace-1", "", "llm-call", ""⟩
        [("feedback.name", AttrVal.str "accuracy"), ("feedback.score", AttrVal.num ⟨7⟩)]) :=
  ⟨rfl,
    (C10_add_feedback_score
      { trace := none, span := some ⟨⟨"trace-1", "span-1"⟩, "trace-1", "", "llm-call", ""⟩
        otel := none }
      { Name := "accuracy", Score := ⟨7⟩, Reason := "good", SpanID := "", TraceID := "" }).1
      _ rfl⟩

/-- Witness for C8: a URL with one trailing slash and a non-empty SpaceID;
the second successful call appends the "/s/"+SpaceID suffix again. -/
theorem C8_witness :
    (({ URL := "http://host/", SpaceID := "sp", APIKey := "", ProjectName := "p" } : Config).URL
      ≠ "") ∧
    (({ URL := "http://host/", SpaceID := "sp", APIKey := "", ProjectName := "p" } : Config).SpaceID
      ≠ "") ∧
    (Config.Validate (Config.Validate
        { URL := "http://host/", SpaceID := "sp", APIKey := "", ProjectName := "p" }).2).2.URL =
      trimSuffixSlash (Config.Validate
        { URL := "http://host/", SpaceID := "sp", APIKey := "", ProjectName := "p" }).2.URL ++
        "/s/" ++ "sp" :=
  ⟨by decide, by decide,
    ((C8_validate_mutation
      { URL := "http://host/", SpaceID := "sp", APIKey := "", ProjectName := "p" }).2.2.2
      (by decide) (by decide)).2⟩

/-- C1: `Provider.StartSpan` tracks identity and parent/child linkage through
the context: the span stored in the returned context is the new span; the new
span's ParentSpanID is the ID of the span in the incoming context (empty when
there is none); its TraceID is the ID of the trace in the incoming context
when present, otherwise the TraceID of the parent span in the context.  The
`Ctx.WF` hypothesis reflects the OTEL guarantee that rendered trace IDs are
never the empty string. -/
theorem C1_start_span_linkage (σ : OtelState) (ctx : Ctx) (name spanType : String)
    (hwf : Ctx.WF ctx) :
    Provider.SpanFromContext (Provider.StartSpan σ ctx name spanType).2.1 =
      some (Provider.StartSpan σ ctx name spanType).2.2 ∧
    (Provider.StartSpan σ ctx name spanType).2.2.ParentSpanID =
      (match ctx.span with
        | some p => p.ID
        | none => "") ∧
    (∀ t, ctx.trace = some t →
      (Provider.StartSpan σ ctx name spanType).2.2.TraceID = t.ID) ∧
    (ctx.trace = none → ∀ p, ctx.span = some p →
      (Provider.StartSpan σ ctx name spanType).2.2.TraceID = p.TraceID) := by
  obtain ⟨hwt, hws⟩ := hwf
  cases hT : ctx.trace with
  | none =>
    cases hS : ctx.span with
    | none =>
      simp [Provider.StartSpan, Provider.SpanFromContext, spanFromContext, traceFromContext,
        tracerStart, contextWithSpan, newSpan, hT, hS, spanWrapper.ParentSpanID]
    | some p =>
      have hws' : p.otelSpan.traceID ≠ "" := by rw [hS] at hws; exact hws
      by_cases hx : p.traceID = "" <;>
        simp [Provider.StartSpan, Provider.SpanFromContext, spanFromContext, traceFromContext,
          tracerStart, contextWithSpan, newSpan, hT, hS, spanWrapper.ParentSpanID,
          spanWrapper.TraceID, spanWrapper.ID, hx, hws']
  | some t =>
    have hwt' : t.otelSpan.traceID ≠ "" := by rw [hT] at hwt; exact hwt
    cases hS : ctx.span with
    | none =>
      simp [Provider.StartSpan, Provider.SpanFromContext, spanFromContext, traceFromContext,
        tracerStart, contextWithSpan, newSpan, hT, hS, spanWrapper.ParentSpanID,
        spanWrapper.TraceID, traceWrapper.ID, hwt']
    | some p =>
      simp [Provider.StartSpan, Provider.SpanFromContext, spanFromContext, traceFromContext,
        tracerStart, contextWithSpan, newSpan, hT, hS, spanWrapper.ParentSpanID,
        spanWrapper.TraceID, spanWrapper.ID, traceWrapper.ID, hwt']

/-- Witness for C1: a well-formed context carrying a trace; the child span
picks up the trace's ID. -/
theorem C1_witness :
    Ctx.WF { trace := some ⟨⟨"trace-7", "span-7"⟩, "root"⟩, span := none
             otel := some ⟨"trace-7", "span-7"⟩ } ∧
    (Provider.StartSpan ⟨8⟩
        { trace := some ⟨⟨"trace-7", "span-7"⟩, "root"⟩, span := none
          otel := some ⟨"trace-7", "span-7"⟩ } "child" "").2.2.TraceID =
      traceWrapper.ID ⟨⟨"trace-7", "span-7"⟩, "root"⟩ :=
  ⟨⟨by decide, trivial⟩,
    (C1_start_span_linkage ⟨8⟩
      { trace := some ⟨⟨"trace-7", "span-7"⟩, "root"⟩, span := none
        otel := some ⟨"trace-7", "span-7"⟩ } "child" ""
      ⟨by decide, trivial⟩).2.2.1 ⟨⟨"trace-7", "span-7"⟩, "root"⟩ rfl⟩

/-- Any context descending from the context in which `t` was started still
carries `t` in its trace slot: `contextWithSpan` and the OTEL context update
never touch it. -/
theorem DescendsFrom.trace_slot (t : traceWrapper) (ctx : Ctx) (h : DescendsFrom t ctx) :
    ctx.trace = some t := by
  induction h with
  | start σ ctx₀ name heq =>
    rw [← heq]
    rfl
  | provSpan σ ctx name spanType _ ih =>
    have hpreserve : (Provider.StartSpan σ ctx name spanType).2.1.trace = ctx.trace := rfl
    rw [hpreserve, ih]
  | traceSpan t' σ ctx name spanType _ ih =>
    have hpreserve : (traceWrapper.StartSpan t' σ ctx name spanType).2.1.trace = ctx.trace := rfl
    rw [hpreserve, ih]
  | spanSpan s σ ctx name spanType _ ih =>
    have hpreserve : (spanWrapper.StartSpan s σ ctx name spanType).2.1.trace = ctx.trace := rfl
    rw [hpreserve, ih]

/-- C2: a trace is a tree of spans sharing a single root identifier: every
span started through `t.StartSpan`, and every span started through
`Provider.StartSpan` on a context descending from the context in which `t`
was started, has `TraceID() = t.ID()`.  The hypothesis `t.ID ≠ ""` reflects
the OTEL guarantee that rendered trace IDs are never empty. -/
theorem C2_trace_tree (t : traceWrapper) (ht : t.ID ≠ "") :
    (∀ ctx, DescendsFrom t ctx → ∀ σ name spanType,
      (Provider.StartSpan σ ctx name spanType).2.2.TraceID = t.ID) ∧
    (∀ σ ctx name spanType,
      (traceWrapper.StartSpan t σ ctx name spanType).2.2.TraceID = t.ID) := by
  constructor
  · intro ctx hd σ name spanType
    have hctx : ctx.trace = some t := DescendsFrom.trace_slot t ctx hd
    cases hS : ctx.span with
    | none =>
      simp [Provider.StartSpan, traceFromContext, spanFromContext, tracerStart,
        contextWithSpan, newSpan, hctx, hS, spanWrapper.TraceID, ht]
    | some p =>
      simp [Provider.StartSpan, traceFromContext, spanFromContext, tracerStart,
        contextWithSpan, newSpan, hctx, hS, spanWrapper.TraceID, ht]
  · intro σ ctx name spanType
    simp [traceWrapper.StartSpan, tracerStart, contextWithSpan, newSpan,
      spanWrapper.TraceID, ht]

/-- Witness for C2: start a trace on the empty context, then a provider span
in the resulting context; the span carries the trace's root identifier. -/
theorem C2_witness :
    (Provider.StartTrace ⟨0⟩ ⟨none, none, none⟩ "root").2.2.ID ≠ "" ∧
    (Provider.StartSpan ⟨1⟩ (Provider.StartTrace ⟨0⟩ ⟨none, none, none⟩ "root").2.1
        "child" "").2.2.TraceID =
      (Provider.StartTrace ⟨0⟩ ⟨none, none, none⟩ "root").2.2.ID :=
  ⟨by decide,
    (C2_trace_tree (Provider.StartTrace ⟨0⟩ ⟨none, none, none⟩ "root").2.2 (by decide)).1
      (Provider.StartTrace ⟨0⟩ ⟨none, none, none⟩ "root").2.1
      (DescendsFrom.start ⟨0⟩ ⟨none, none, none⟩ "root" rfl) ⟨1⟩ "child" ""⟩

theorem foldl_scores_eq (input : EvalInput) (l : List Metric) (acc : List MetricScore) :
    List.foldl
      (fun acc metric =>
        match metric.evaluate input with
        | Except.ok score => acc ++ [score]
        | Except.error e =>
            acc ++ [{ Name := metric.name, Score := ⟨0⟩, Reason := "", Metadata := none
                      Error := e }]) acc l =
      acc ++ l.map (fun metric =>
        match metric.evaluate input with
        | Except.ok score => score
        | Except.error e =>
            { Name := metric.name, Score := ⟨0⟩, Reason := "", Metadata := none, Error := e }) := by
  induction l generalizing acc with
  | nil => simp
  | cons m l ih =>
    cases hm : m.evaluate input <;> simp [hm, ih]

theorem annsLoop_eq (spanID : String) (l : List MetricScore) (acc : List SpanAnnotData) :
    annsLoop spanID l acc =
      if l.any (fun s => s.Error == "" && metaIsNonMap s.Metadata) then
        Except.error labelAssertPanic
      else Except.ok (acc ++ (l.filter (fun s => s.Error = "")).map (mkSpanAnnotData spanID)) := by
  induction l generalizing acc with
  | nil => simp [annsLoop]
  | cons s rest ih =>
    by_cases hs : s.Error = ""
    · by_cases hm : metaIsNonMap s.Metadata = true
      · simp [annsLoop, hs, hm]
      · simp only [annsLoop]
        rw [if_neg (not_not_intro hs), if_neg hm, ih]
        by_cases ha : rest.any (fun s => s.Error == "" && metaIsNonMap s.Metadata) = true
        · simp [List.any_cons, hs, hm, ha]
        · simp [List.any_cons, hs, hm, ha, List.filter_cons]
    · simp only [annsLoop]
      rw [if_pos hs, ih]
      by_cases ha : rest.any (fun s => s.Error == "" && metaIsNonMap s.Metadata) = true
      · simp [List.any_cons, hs, ha]
      · simp [List.any_cons, hs, ha, List.filter_cons]

theorem evaluate_eq (recordResults : Bool) (api : AnnotateSpansReqBody → Option GoError)
    (input : EvalInput) (metricList : List Metric) :
    Evaluator.Evaluate recordResults api input metricList =
      (if recordResults = true ∧ input.SpanID ≠ "" then
        if (metricList.map (runMetric input)).any
            (fun s => s.Error == "" && metaIsNonMap s.Metadata) then
          Except.error labelAssertPanic
        else if (((metricList.map (runMetric input)).filter (fun s => s.Error = "")).map
            (mkSpanAnnotData input.SpanID)) = [] then
          Except.ok ({ Scores := metricList.map (runMetric input), Metadata := none }, none, [])
        else
          match api { Data := (((metricList.map (runMetric input)).filter
              (fun s => s.Error = "")).map (mkSpanAnnotData input.SpanID)) } with
          | some e =>
              Except.ok
                ({ Scores := metricList.map (runMetric input)
                   Metadata := some [("record_error", errText e)] }, none,
                 [{ Data := (((metricList.map (runMetric input)).filter
                     (fun s => s.Error = "")).map (mkSpanAnnotData input.SpanID)) }])
          | none =>
              Except.ok
                ({ Scores := metricList.map (runMetric input), Metadata := none }, none,
                 [{ Data := (((metricList.map (runMetric input)).filter
                     (fun s => s.Error = "")).map (mkSpanAnnotData input.SpanID)) }])
      else Except.ok ({ Scores := metricList.map (runMetric input), Metadata := none },
        none, [])) := by
  have hmapeq : ∀ l : List Metric,
      List.foldl
        (fun acc metric =>
          match metric.evaluate input with
          | Except.ok score => acc ++ [score]
          | Except.error e =>
              acc ++ [{ Name := metric.name, Score := ⟨0⟩, Reason := "", Metadata := none
                        Error := e }]) [] l = l.map (runMetric input) := by
    intro l
    rw [foldl_scores_eq]
    simp [runMetric]
  simp only [Evaluator.Evaluate, recordScoresToPhoenix, hmapeq, annsLoop_eq,
    List.nil_append]
  by_cases hb : recordResults = true ∧ input.SpanID ≠ ""
  · by_cases hp : (metricList.map (runMetric input)).any
        (fun s => s.Error == "" && metaIsNonMap s.Metadata) = true
    · simp [hb, hp]
    · by_cases he : (((metricList.map (runMetric input)).filter (fun s => s.Error = "")).map
          (mkSpanAnnotData input.SpanID)) = []
      · simp [hb, hp, he]
      · cases ha : api { Data := (((metricList.map (runMetric input)).filter
            (fun s => s.Error = "")).map (mkSpanAnnotData input.SpanID)) } <;>
          simp [hb, hp, he, ha]
  · simp [hb]

/-- C5 counterexample: a metric returning an error-free score whose metadata
is non-nil but not a `map[string]any`; with recording enabled and a span ID
present, the label extraction reaches the unchecked one-value type assertion
`score.Metadata.(map[string]any)` and panics, so `Evaluate` does not return
a result with a nil error — refuting the claim's "for every input and metric
list Evaluate returns a non-nil result with a nil error". -/
theorem C5_counterexample :
    Evaluator.Evaluate true (fun _ => none)
      { Input := "q", Output := "a", SpanID := "span-1" }
      [{ name := "m"
         evaluate := fun _ => Except.ok
           { Name := "m", Score := ⟨1⟩, Reason := ""
             Metadata := some (GoAny.nonMap 0), Error := "" } }] =
      Except.error labelAssertPanic := by
  rfl

/-- C5 (amended): `Evaluator.Evaluate` produces exactly one score per metric,
in order, turning a metric failure into a score carrying the error message;
it issues the span-annotating API call exactly when `recordResults` holds,
the input's SpanID is non-empty and at least one score has no error — with
the errored scores skipped — and a persistence failure is reported under
Metadata["record_error"]; it returns a non-nil result with a nil error unless
recording is enabled, the SpanID is non-empty and some error-free score
carries non-nil metadata that is not a `map[string]any` — exactly then the
unchecked type assertion in the label extraction panics. -/
theorem C5_evaluate_amended (recordResults : Bool) (api : AnnotateSpansReqBody → Option GoError)
    (input : EvalInput) (metricList : List Metric) :
    ((∃ msg, Evaluator.Evaluate recordResults api input metricList = Except.error msg) ↔
      (recordResults = true ∧ input.SpanID ≠ "" ∧
        (metricList.map (runMetric input)).any
          (fun s => s.Error == "" && metaIsNonMap s.Metadata) = true)) ∧
    (∀ r, Evaluator.Evaluate recordResults api input metricList = Except.ok r →
      r.1.Scores = metricList.map (runMetric input) ∧
      r.2.1 = none ∧
      (r.2.2 =
        if recordResults = true ∧ input.SpanID ≠ "" ∧
            (((r.1.Scores.filter (fun s => s.Error = "")).map
              (mkSpanAnnotData input.SpanID)) ≠ [])
        then [{ Data := ((r.1.Scores.filter (fun s => s.Error = "")).map
            (mkSpanAnnotData input.SpanID)) }]
        else []) ∧
      (r.1.Metadata =
        match r.2.2 with
        | [req] => (api req).map (fun e => [("record_error", errText e)])
        | _ => none)) := by
  by_cases hb : recordResults = true ∧ input.SpanID ≠ ""
  · by_cases hp : (metricList.map (runMetric input)).any
        (fun s => s.Error == "" && metaIsNonMap s.Metadata) = true
    · constructor
      · simp [evaluate_eq, hb, hp]
      · intro r hr
        rw [evaluate_eq] at hr
        simp [hb, hp] at hr
    · by_cases he : (((metricList.map (runMetric input)).filter (fun s => s.Error = "")).map
          (mkSpanAnnotData input.SpanID)) = []
      · constructor
        · simp [evaluate_eq, hb, hp, he]
        · intro r hr
          rw [evaluate_eq] at hr
          simp [hb, hp, he] at hr
          subst hr
          simp [hb, he]
      · cases ha : api { Data := (((metricList.map (runMetric input)).filter
            (fun s => s.Error = "")).map (mkSpanAnnotData input.SpanID)) } with
        | none =>
          constructor
          · simp [evaluate_eq, hb, hp, he, ha]
          · intro r hr
            rw [evaluate_eq] at hr
            simp [hb, hp, he, ha] at hr
            subst hr
            simp [hb, he, ha]
        | some e =>
          constructor
          · simp [evaluate_eq, hb, hp, he, ha]
          · intro r hr
            rw [evaluate_eq] at hr
            simp [hb, hp, he, ha] at hr
            subst hr
            simp [hb, he, ha]
  · constructor
    · simp [evaluate_eq, hb]
      intro h1 h2
      exact absurd ⟨h1, h2⟩ hb
    · intro r hr
      rw [evaluate_eq] at hr
      simp [hb] at hr
      subst hr
      refine ⟨rfl, rfl, ?_, rfl⟩
      rw [if_neg (fun hc => hb ⟨hc.1, hc.2.1⟩)]

/-- Witness for C5 (amended): a failing metric with recording disabled; the
`Evaluate = ok` hypothesis is discharged by computation, and the score list
records the metric's error message. -/
theorem C5_witness :
    Evaluator.Evaluate false (fun _ => none) { Input := "q", Output := "a", SpanID := "" }
      [{ name := "m", evaluate := fun _ => Except.error "boom" }] =
      Except.ok
        ({ Scores := [{ Name := "m", Score := ⟨0⟩, Reason := "", Metadata := none
                        Error := "boom" }]
           Metadata := none }, none, []) ∧
    (({ Scores := [{ Name := "m", Score := ⟨0⟩, Reason := "", Metadata := none
                     Error := "boom" }]
        Metadata := none } : EvalResult), (none : Option GoError),
      ([] : List AnnotateSpansReqBody)).1.Scores =
      [{ name := "m", evaluate := fun _ => Except.error "boom" }].map
        (runMetric { Input := "q", Output := "a", SpanID := "" }) :=
  ⟨rfl,
    ((C5_evaluate_amended false (fun _ => none) { Input := "q", Output := "a", SpanID := "" }
      [{ name := "m", evaluate := fun _ => Except.error "boom" }]).2
      ({ Scores := [{ Name := "m", Score := ⟨0⟩, Reason := "", Metadata := none
                      Error := "boom" }]
         Metadata := none }, none, []) rfl).1⟩

end GoPhoenix
